import Mathlib

/-!
Verification of the acquisition subsystem of `coreason_etl_fda_orange_book`
(`src/coreason_etl_fda_orange_book/source.py`, class `FdaOrangeBookSource`).

The embedding models:
  * POSIX-style `pathlib` paths (`PurePath`): parsing, the `/` join operator,
    `resolve()` canonicalization (symlink-free resolution is the concrete
    instance; extraction is additionally parameterized over an arbitrary
    resolver so that resolution failures and symlink effects are covered),
    and `is_relative_to` as a component-wise containment check;
  * the exceptions raised by the module: the code has exactly two exception
    classes, `SourceConnectionError` and `SourceSchemaError`; each raise site
    is modelled with its class, message template and wrapped cause;
  * `download_archive` over an abstract HTTP fetch outcome;
  * `extract_archive` over an abstract archive file, recording written
    files, logged warnings and the returned list;
  * `calculate_file_hash` with a full executable MD5 and 8192-byte chunking;
  * `resolve_product_files` over the extracted path list.
-/

/-- A byte sequence, each element intended to lie below 256. -/
abbrev Bytes := List Nat

/-! ## Path model (`pathlib.PurePosixPath` semantics) -/

/-- A pathlib-style pure path: an absolute flag (leading `/`) plus the
component list, with empty and `.` components already dropped (as pathlib
does at construction time); `..` components are kept (pathlib keeps them in
`parts` and only collapses them in `resolve()`). -/
structure PurePath where
  absolute : Bool
  parts : List String
deriving DecidableEq, Repr

/-- Keep exactly the components pathlib keeps: drop empty strings and `.`. -/
def keepComponent (s : String) : Bool :=
  s != "" && s != "."

/-- Split a character list at every occurrence of the separator (the
semantics of `str.split(sep)`: `n` separators yield `n + 1` pieces). -/
def splitChars (sep : Char) : List Char → List (List Char)
  | [] => [[]]
  | c :: cs =>
    let r := splitChars sep cs
    if c == sep then [] :: r
    else (c :: r.headD []) :: r.tail

/-- Parse a path string into a `PurePath` (POSIX rules: absolute iff it
starts with `/`; split on `/`; drop empty and `.` components). -/
def parsePath (s : String) : PurePath :=
  { absolute := s.data.head? == some '/'
    parts := ((splitChars '/' s.data).map String.mk).filter keepComponent }

/-- The pathlib `/` operator: if the right operand is absolute it replaces
the left one entirely, otherwise components are concatenated. -/
def PurePath.join (p q : PurePath) : PurePath :=
  if q.absolute then q else { absolute := p.absolute, parts := p.parts ++ q.parts }

/-- Collapse `..` components left to right, as `Path.resolve()` does on a
path whose prefix contains no symlinks: `..` pops the previous component and
is a no-op at the root. -/
def normParts (parts : List String) : List String :=
  parts.foldl (fun acc c => if c = ".." then acc.dropLast else acc ++ [c]) []

/-- Symlink-free `Path.resolve()` relative to an absolute working directory
given by its component list: make the path absolute, then collapse `..`. -/
def resolvePure (cwd : List String) (p : PurePath) : PurePath :=
  { absolute := true
    parts := normParts ((if p.absolute then [] else cwd) ++ p.parts) }

/-- Component-wise prefix test on component lists (`dest` is the candidate
ancestor).  This is the path-containment check underlying
`PurePath.is_relative_to`; it is not a string-prefix test, so `/dest` is not
an ancestor of `/dest-evil`. -/
def partsLe : List String → List String → Bool
  | [], _ => true
  | _ :: _, [] => false
  | a :: as, b :: bs => a == b && partsLe as bs

/-- `pathlib.Path.is_relative_to`: for two resolved paths, true iff they
share the anchor and the candidate ancestor's components are a prefix of the
path's components. -/
def PurePath.isRelativeTo (p anc : PurePath) : Bool :=
  p.absolute == anc.absolute && partsLe anc.parts p.parts

/-- `pathlib.PurePath.name`: the final component (empty for the root or the
empty relative path). -/
def PurePath.name (p : PurePath) : String :=
  p.parts.getLast?.getD ""

/-! ## Exceptions

`coreason_etl_fda_orange_book.exceptions` defines exactly two exception
classes used by `source.py`: `SourceConnectionError` and `SourceSchemaError`.
Each raise site is modelled by its class, its message template (the static
text of the f-string, without the interpolated path/URL), and the wrapped
cause (`raise ... from e`), if any. -/

/-- The exception class of a raised error. -/
inductive ExcClass where
  | sourceConnectionError
  | sourceSchemaError
deriving DecidableEq, Repr

/-- A raised exception: class, message template, and wrapped cause. -/
structure PyExc where
  cls : ExcClass
  msg : String
  cause : Option String
deriving DecidableEq, Repr

/-! ## Configuration (`config.py`, class `FdaConfig`) -/

namespace FdaConfig

def FILE_PRODUCTS : String := "products.txt"

def FILE_PATENTS : String := "patent.txt"

def FILE_EXCLUSIVITY : String := "exclusivity.txt"

end FdaConfig

/-- `FdaOrangeBookSource.CHUNK_SIZE`. -/
def CHUNK_SIZE : Nat := 8192

/-! ## MD5 (`hashlib.md5`)

A full executable MD5 over byte lists: padding, 512-bit blocks, the 64-round
compression function in 32-bit modular arithmetic, and the little-endian
lowercase hex digest.  `hashlib`'s incremental interface is modelled by its
observable behavior: `update` accumulates the stream and `hexdigest` hashes
the accumulated bytes (for real `hashlib`, `update(a); update(b)` is
specified to equal `update(a + b)`). -/

/-- Truncation to a 32-bit word. -/
def w32 (n : Nat) : Nat := n % 4294967296

/-- 32-bit left rotation (the operand is truncated to 32 bits first). -/
def rotl32 (x s : Nat) : Nat :=
  w32 (w32 x <<< s) ||| (w32 x >>> (32 - s))

/-- The 64 MD5 round constants `K[i] = floor(2^32 * abs(sin(i + 1)))`. -/
def md5K : List Nat :=
  [0xd76aa478, 0xe8c7b756, 0x242070db, 0xc1bdceee,
   0xf57c0faf, 0x4787c62a, 0xa8304613, 0xfd469501,
   0x698098d8, 0x8b44f7af, 0xffff5bb1, 0x895cd7be,
   0x6b901122, 0xfd987193, 0xa679438e, 0x49b40821,
   0xf61e2562, 0xc040b340, 0x265e5a51, 0xe9b6c7aa,
   0xd62f105d, 0x02441453, 0xd8a1e681, 0xe7d3fbc8,
   0x21e1cde6, 0xc33707d6, 0xf4d50d87, 0x455a14ed,
   0xa9e3e905, 0xfcefa3f8, 0x676f02d9, 0x8d2a4c8a,
   0xfffa3942, 0x8771f681, 0x6d9d6122, 0xfde5380c,
   0xa4beea44, 0x4bdecfa9, 0xf6bb4b60, 0xbebfbc70,
   0x289b7ec6, 0xeaa127fa, 0xd4ef3085, 0x04881d05,
   0xd9d4d039, 0xe6db99e5, 0x1fa27cf8, 0xc4ac5665,
   0xf4292244, 0x432aff97, 0xab9423a7, 0xfc93a039,
   0x655b59c3, 0x8f0ccc92, 0xffeff47d, 0x85845dd1,
   0x6fa87e4f, 0xfe2ce6e0, 0xa3014314, 0x4e0811a1,
   0xf7537e82, 0xbd3af235, 0x2ad7d2bb, 0xeb86d391]

/-- The 64 MD5 per-round left-rotation amounts. -/
def md5S : List Nat :=
  [7, 12, 17, 22, 7, 12, 17, 22, 7, 12, 17, 22, 7, 12, 17, 22,
   5, 9, 14, 20, 5, 9, 14, 20, 5, 9, 14, 20, 5, 9, 14, 20,
   4, 11, 16, 23, 4, 11, 16, 23, 4, 11, 16, 23, 4, 11, 16, 23,
   6, 10, 15, 21, 6, 10, 15, 21, 6, 10, 15, 21, 6, 10, 15, 21]

/-- The MD5 nonlinear function of round `i` applied to `b`, `c`, `d`. -/
def md5F (i b c d : Nat) : Nat :=
  if i < 16 then (b &&& c) ||| ((0xffffffff ^^^ w32 b) &&& d)
  else if i < 32 then (d &&& b) ||| ((0xffffffff ^^^ w32 d) &&& c)
  else if i < 48 then b ^^^ c ^^^ d
  else c ^^^ (b ||| (0xffffffff ^^^ w32 d))

/-- The MD5 message-word index of round `i`. -/
def md5G (i : Nat) : Nat :=
  if i < 16 then i
  else if i < 32 then (5 * i + 1) % 16
  else if i < 48 then (3 * i + 5) % 16
  else (7 * i) % 16

/-- MD5 padding: append `0x80`, zero bytes until the length is 56 modulo 64,
then the original bit length as 8 little-endian bytes. -/
def md5Pad (msg : Bytes) : Bytes :=
  let len := msg.length
  let zeros := (120 - ((len + 1) % 64)) % 64
  msg ++ [0x80] ++ List.replicate zeros 0 ++
    (List.range 8).map (fun i => ((len * 8) >>> (8 * i)) % 256)

/-- Fuel-driven chunking: peel `n`-byte chunks off the front while fuel
lasts.  A fuel of at least the list length is always sufficient when
`0 < n`, since every step consumes at least one byte; `n = 0` yields no
chunks. -/
def chunksOfAux (n : Nat) : Nat → Bytes → List Bytes
  | _, [] => []
  | 0, _ :: _ => []
  | fuel + 1, c :: cs =>
    if n = 0 then [] else
      ((c :: cs).take n) :: chunksOfAux n fuel ((c :: cs).drop n)

/-- Split a byte list into chunks of `n` bytes (the final chunk may be
short).  This is both `f.read(n)` iterated until the empty read and the
64-byte block decomposition of MD5. -/
def chunksOf (n : Nat) (l : Bytes) : List Bytes := chunksOfAux n l.length l

/-- The 16 little-endian 32-bit message words of a 64-byte block. -/
def blockWords (b : Bytes) : List Nat :=
  (List.range 16).map (fun j =>
    b.getD (4 * j) 0 + 256 * b.getD (4 * j + 1) 0 +
      65536 * b.getD (4 * j + 2) 0 + 16777216 * b.getD (4 * j + 3) 0)

/-- One MD5 round on the state `(a, b, c, d)`. -/
def md5Round (m : List Nat) (st : Nat × Nat × Nat × Nat) (i : Nat) :
    Nat × Nat × Nat × Nat :=
  let f := w32 (md5F i st.2.1 st.2.2.1 st.2.2.2 + st.1 +
    md5K.getD i 0 + m.getD (md5G i) 0)
  (st.2.2.2, w32 (st.2.1 + rotl32 f (md5S.getD i 0)), st.2.1, st.2.2.1)

/-- The MD5 compression function: 64 rounds over one 64-byte block, then a
modular addition of the incoming state. -/
def md5Block (st : Nat × Nat × Nat × Nat) (block : Bytes) :
    Nat × Nat × Nat × Nat :=
  let r := (List.range 64).foldl (md5Round (blockWords block)) st
  (w32 (st.1 + r.1), w32 (st.2.1 + r.2.1),
   w32 (st.2.2.1 + r.2.2.1), w32 (st.2.2.2 + r.2.2.2))

/-- The MD5 initial state. -/
def md5Init : Nat × Nat × Nat × Nat :=
  (0x67452301, 0xefcdab89, 0x98badcfe, 0x10325476)

/-- The 16-byte MD5 digest of a message: pad, compress each block, then
serialize the state words little-endian. -/
def md5Digest (msg : Bytes) : Bytes :=
  let st := (chunksOf 64 (md5Pad msg)).foldl md5Block md5Init
  ([st.1, st.2.1, st.2.2.1, st.2.2.2].map
    (fun x => (List.range 4).map (fun i => (x >>> (8 * i)) % 256))).flatten

/-- The sixteen lowercase hex digit characters. -/
def hexChars : List Char := "0123456789abcdef".toList

/-- The lowercase hex digit of a value below 16. -/
def hexChar (n : Nat) : Char := hexChars.getD n '0'

/-- The two lowercase hex characters of one byte. -/
def byteHex (b : Nat) : List Char := [hexChar (b / 16 % 16), hexChar (b % 16)]

/-- The lowercase hex MD5 digest of a message (`hexdigest()`). -/
def md5Hex (msg : Bytes) : String :=
  String.mk (((md5Digest msg).map byteHex).flatten)

/-- The observable state of a `hashlib.md5` object: the bytes fed so far. -/
structure Md5State where
  buffered : Bytes
deriving DecidableEq, Repr

/-- `hashlib.md5()`. -/
def md5_new : Md5State := { buffered := [] }

/-- `hash_md5.update(chunk)`. -/
def Md5State.update (h : Md5State) (chunk : Bytes) : Md5State :=
  { buffered := h.buffered ++ chunk }

/-- `hash_md5.hexdigest()`. -/
def Md5State.hexdigest (h : Md5State) : String := md5Hex h.buffered

/-! ## Content hasher (`FdaOrangeBookSource.calculate_file_hash`) -/

/-- The state of the file handed to the hasher: whether `Path.exists()`
holds, and what opening and reading it would produce (an `OSError`, or the
content bytes).  The two observations are independent, so the theorems can
quantify over what a read would have returned even when the existence check
already fails. -/
structure FileState where
  present : Bool
  readResult : Except String Bytes

/-- `FdaOrangeBookSource.calculate_file_hash`: an explicit existence check
first (raising `SourceConnectionError` with the not-found message, with no
read performed), then the 8192-byte chunked read-and-update loop, wrapping
any `OSError` in `SourceConnectionError` with the original cause. -/
def calculate_file_hash (file : FileState) : Except PyExc String :=
  if !file.present then
    .error { cls := .sourceConnectionError
             msg := "File not found for hashing"
             cause := none }
  else
    match file.readResult with
    | .error e =>
      .error { cls := .sourceConnectionError
               msg := "Failed to calculate hash for"
               cause := some e }
    | .ok content =>
      .ok ((chunksOf CHUNK_SIZE content).foldl Md5State.update md5_new).hexdigest

/-! ## File role resolver (`FdaOrangeBookSource.resolve_product_files`) -/

/-- ASCII lowercase of one character. -/
def asciiLowerChar (c : Char) : Char :=
  if 65 ≤ c.toNat ∧ c.toNat ≤ 90 then Char.ofNat (c.toNat + 32) else c

/-- Python `str.lower()` restricted to ASCII, which is all the well-known
filenames use. -/
def pyLower (s : String) : String := String.mk (s.data.map asciiLowerChar)

/-- Equality on `Except` values is decidable when it is on both sides. -/
instance {ε α : Type} [DecidableEq ε] [DecidableEq α] : DecidableEq (Except ε α) := fun x y =>
  match x, y with
  | .ok a, .ok b =>
    if h : a = b then isTrue (by rw [h]) else isFalse (fun hc => by cases hc; exact h rfl)
  | .error a, .error b =>
    if h : a = b then isTrue (by rw [h]) else isFalse (fun hc => by cases hc; exact h rfl)
  | .ok _, .error _ => isFalse (fun hc => by cases hc)
  | .error _, .ok _ => isFalse (fun hc => by cases hc)

/-- The lowercased base filename of a path: `f.name.lower()`. -/
def lowerName (f : PurePath) : String := pyLower f.name

/-- The case-insensitive lookup `name_map = {f.name.lower(): f for f in
extracted_files}`: a dict comprehension, so a later file overwrites an
earlier one with the same key.  Modelled as the overwriting left fold of the
insertions, queried at `key`. -/
def name_map (files : List PurePath) (key : String) : Option PurePath :=
  files.foldl (fun acc f => if lowerName f = key then some f else acc) none

/-- The role map returned by `resolve_product_files`: the dict with the
fixed keys `products`, `patent`, `exclusivity`. -/
structure RoleMap where
  products : List PurePath
  patent : List PurePath
  exclusivity : List PurePath
deriving DecidableEq, Repr

/-- The ordered list of fallback component filenames for `products`. -/
def componentNames : List String := ["rx.txt", "otc.txt", "disc.txt"]

/-- `FdaOrangeBookSource.resolve_product_files`: resolve `products` by the
canonical filename with a fallback to the split components, failing with
`SourceSchemaError` when neither is present; resolve `patent` and
`exclusivity` independently, leaving them empty (with only a warning) when
absent. -/
def resolve_product_files (files : List PurePath) : Except PyExc RoleMap :=
  match name_map files (pyLower FdaConfig.FILE_PRODUCTS) with
  | some f =>
    .ok { products := [f]
          patent := (name_map files (pyLower FdaConfig.FILE_PATENTS)).toList
          exclusivity := (name_map files (pyLower FdaConfig.FILE_EXCLUSIVITY)).toList }
  | none =>
    if (componentNames.filterMap (name_map files)).isEmpty then
      .error { cls := .sourceSchemaError
               msg := "Missing required product files (products.txt or rx.txt/otc.txt/disc.txt)"
               cause := none }
    else
      .ok { products := componentNames.filterMap (name_map files)
            patent := (name_map files (pyLower FdaConfig.FILE_PATENTS)).toList
            exclusivity := (name_map files (pyLower FdaConfig.FILE_EXCLUSIVITY)).toList }

/-! ## Archive fetcher (`FdaOrangeBookSource.download_archive`)

`requests.get` either raises a transport-level `RequestsError` or yields a
response carrying the HTTP status code, the final post-redirect URL, and the
body.  `response.raise_for_status()` raises (a `RequestsError` subclass) iff
the status code is at least 400.  The downloaded bytes are the streamed body
chunks written to the destination file. -/

/-- Character-list prefix test. -/
def charPre : List Char → List Char → Bool
  | [], _ => true
  | _ :: _, [] => false
  | a :: as, b :: bs => a == b && charPre as bs

/-- Character-list infix test: the pattern occurs at some position. -/
def charInfix (pat : List Char) : List Char → Bool
  | [] => charPre pat []
  | c :: cs => charPre pat (c :: cs) || charInfix pat cs

/-- Substring test, modelling Python's `in` on strings. -/
def strContains (s pat : String) : Bool :=
  charInfix pat.toList s.toList

/-- An HTTP response as observed by the code: status, final post-redirect
URL, and the streamed body. -/
structure HttpResponse where
  status_code : Nat
  url : String
  body : Bytes
deriving Repr

/-- The outcome of `requests.get`: a response, or a transport-level
`RequestsError` (DNS failure, timeout, reset, too many redirects, ...). -/
inductive FetchOutcome where
  | response (r : HttpResponse)
  | transportError (e : String)
deriving Repr

/-- `FdaOrangeBookSource.download_archive`, as a function of the fetch
outcome: check the final URL for the firewall block-page markers, then
classify 404 and 403 explicitly, then `raise_for_status()` (whose error, and
any transport error, is caught and wrapped in `SourceConnectionError` with
the original cause), and on success return the bytes written to the
destination file. -/
def download_archive (fetch : FetchOutcome) : Except PyExc Bytes :=
  match fetch with
  | .transportError e =>
    .error { cls := .sourceConnectionError
             msg := "Failed to download from"
             cause := some e }
  | .response r =>
    if strContains r.url "abuse" || strContains r.url "apology" then
      .error { cls := .sourceConnectionError
               msg := "FDA Firewall Blocked Request: Abuse Detection Triggered"
               cause := none }
    else if r.status_code = 404 then
      .error { cls := .sourceSchemaError
               msg := "Download link not found (404)"
               cause := none }
    else if r.status_code = 403 then
      .error { cls := .sourceConnectionError
               msg := "Access forbidden (403)"
               cause := none }
    else if 400 ≤ r.status_code then
      .error { cls := .sourceConnectionError
               msg := "Failed to download from"
               cause := some ("HTTPError " ++ toString r.status_code) }
    else
      .ok r.body

/-! ## Safe extractor (`FdaOrangeBookSource.extract_archive`)

The archive file is either missing, present but not a well-formed ZIP
container (so `zipfile.ZipFile` raises `BadZipFile` on open, before anything
is written), or a valid ZIP with its member names in central-directory
order.  Path resolution (`Path.resolve()`) is a filesystem effect — it
depends on the working directory and on symlinks, and can raise — so the
extractor is parameterized over an abstract resolver; `resolvePure` is the
symlink-free concrete instance. -/

/-- The local archive file handed to the extractor. -/
inductive ArchiveFile where
  | missing
  | notAZip
  | valid (entries : List String)

/-- An abstract `Path.resolve()`: canonicalize or fail (the code catches
`ValueError` and `RuntimeError` from the resolution/containment check). -/
abbrev Resolver := PurePath → Except Unit PurePath

/-- The per-entry zip-slip verdict: accept, skip because the resolved path
escapes the destination, or skip because resolution raised. -/
inductive EntryCheck where
  | accept
  | skipUnsafe
  | skipErr
deriving DecidableEq, Repr

/-- The zip-slip check for one candidate target path: resolve the target,
resolve the destination directory, and accept iff the former is relative to
the latter; any resolution failure is a skip. -/
def checkEntry (res : Resolver) (dest target : PurePath) : EntryCheck :=
  match res target with
  | .error _ => .skipErr
  | .ok rp =>
    match res dest with
    | .error _ => .skipErr
    | .ok rd => if rp.isRelativeTo rd then .accept else .skipUnsafe

/-- The candidate output path of a member: `destination_dir / member.filename`. -/
def memberTarget (dest : PurePath) (name : String) : PurePath :=
  dest.join (parsePath name)

/-- The path `zipfile.ZipFile.extract` actually writes for a member:
`CPython`'s `_extract_member` joins the destination with the member name
after dropping empty, `.` and `..` components and any absolute prefix. -/
def extractedWritePath (dest : PurePath) (name : String) : PurePath :=
  { absolute := dest.absolute
    parts := dest.parts ++ ((splitChars '/' name.data).map String.mk).filter
      (fun c => c != "" && c != "." && c != "..") }

/-- The observable outcome of a call to `extract_archive`: the files written
to disk (in order), the warnings logged for skipped members, and the
returned list or raised exception. -/
structure ExtractOutcome where
  written : List PurePath
  warnings : List String
  result : Except PyExc (List PurePath)
deriving Repr

/-- The mutable state of the extraction loop: the files written to disk so
far, the `extracted_files` list built so far, and the warnings logged so
far. -/
structure LoopState where
  written : List PurePath
  returned : List PurePath
  warnings : List String
deriving DecidableEq, Repr

/-- One loop iteration of `extract_archive`: run the zip-slip check on
`destination_dir / member.filename`; on acceptance extract the member (the
write lands on `CPython`'s sanitized path) and append the original
(unresolved) target path to `extracted_files`; otherwise log a warning and
continue. -/
def extractStep (res : Resolver) (dest : PurePath)
    (st : LoopState) (name : String) : LoopState :=
  match checkEntry res dest (memberTarget dest name) with
  | .accept =>
    { st with written := st.written ++ [extractedWritePath dest name]
              returned := st.returned ++ [memberTarget dest name] }
  | .skipUnsafe =>
    { st with warnings := st.warnings ++ ["Skipping unsafe file path in zip: " ++ name] }
  | .skipErr =>
    { st with warnings := st.warnings ++ ["Skipping invalid file path in zip: " ++ name] }

/-- `FdaOrangeBookSource.extract_archive`: a missing archive raises
`SourceConnectionError`; a file that is not a well-formed ZIP container
makes `zipfile.ZipFile` raise `BadZipFile` at open time, which is wrapped in
`SourceSchemaError` before anything is written; otherswise every member is
run through the zip-slip check, accepted members are extracted, and skipped
members only produce a warning. -/
def extract_archive (res : Resolver) (dest : PurePath) (arch : ArchiveFile) :
    ExtractOutcome :=
  match arch with
  | .missing =>
    { written := [], warnings := []
      result := .error { cls := .sourceConnectionError
                         msg := "ZIP file not found at"
                         cause := none } }
  | .notAZip =>
    { written := [], warnings := []
      result := .error { cls := .sourceSchemaError
                         msg := "is not a valid ZIP archive"
                         cause := some "BadZipFile" } }
  | .valid entries =>
    let st := entries.foldl (extractStep res dest) ⟨[], [], []⟩
    { written := st.written
      warnings := st.warnings
      result := .ok st.returned }

/-! ## Specification-side definitions

These definitions restate spec-side descriptions for comparison with the
embedded code; they are not translations of the source. -/

/-- The last file of the list whose lowercased base name is `key` — the
specification of which path a dict comprehension keyed by lowercased names
associates to `key`. -/
def lastMatching (key : String) : List PurePath → Option PurePath
  | [] => none
  | f :: fs =>
    match lastMatching key fs with
    | some g => some g
    | none => if lowerName f = key then some f else none

/-- A sample extracted path with the given base filename, used by the
concrete instances. -/
def samplePath (n : String) : PurePath :=
  { absolute := true, parts := ["tmp", "extracted", n] }

/-! ## Helper lemmas: the case-insensitive name lookup -/

theorem name_map_foldl_eq (key : String) (files : List PurePath) :
    ∀ a : Option PurePath,
      files.foldl (fun acc f => if lowerName f = key then some f else acc) a =
        match lastMatching key files with
        | some g => some g
        | none => a := by
  induction files with
  | nil => intro a; rfl
  | cons f fs ih =>
    intro a
    simp only [List.foldl_cons, lastMatching, ih]
    cases lastMatching key fs with
    | some g => rfl
    | none => by_cases h : lowerName f = key <;> simp [h]

theorem name_map_eq_lastMatching (files : List PurePath) (key : String) :
    name_map files key = lastMatching key files := by
  unfold name_map
  rw [name_map_foldl_eq]
  cases lastMatching key files <;> rfl

theorem lastMatching_mem (key : String) (files : List PurePath) (f : PurePath)
    (h : lastMatching key files = some f) : f ∈ files ∧ lowerName f = key := by
  induction files with
  | nil => simp [lastMatching] at h
  | cons g gs ih =>
    simp only [lastMatching] at h
    cases hg : lastMatching key gs with
    | some x =>
      rw [hg] at h
      obtain ⟨hm, hk⟩ := ih (by rw [hg, ← h])
      exact ⟨List.mem_cons_of_mem g hm, hk⟩
    | none =>
      rw [hg] at h
      by_cases hl : lowerName g = key
      · rw [if_pos hl] at h
        cases h
        exact ⟨List.mem_cons_self _ _, hl⟩
      · simp [hl] at h

theorem lastMatching_eq_none_iff (key : String) (files : List PurePath) :
    lastMatching key files = none ↔ ∀ f ∈ files, lowerName f ≠ key := by
  induction files with
  | nil => simp [lastMatching]
  | cons f fs ih =>
    constructor
    · intro hc g hg
      simp only [lastMatching] at hc
      cases h : lastMatching key fs with
      | some x => rw [h] at hc; exact absurd hc (by simp)
      | none =>
        rw [h] at hc
        rcases List.mem_cons.mp hg with rfl | hmem
        · intro hk
          rw [if_pos hk] at hc
          exact Option.noConfusion hc
        · exact (ih.mp h) g hmem
    · intro hall
      have h : lastMatching key fs = none :=
        ih.mpr (fun g hg => hall g (List.mem_cons_of_mem f hg))
      simp only [lastMatching, h]
      rw [if_neg (hall f (List.mem_cons_self f fs))]

theorem name_map_eq_none_iff (files : List PurePath) (key : String) :
    name_map files key = none ↔ ∀ f ∈ files, lowerName f ≠ key := by
  rw [name_map_eq_lastMatching]
  exact lastMatching_eq_none_iff key files

/-- The exception raised when no product file is found. -/
def missingProductsExc : PyExc :=
  { cls := .sourceSchemaError
    msg := "Missing required product files (products.txt or rx.txt/otc.txt/disc.txt)"
    cause := none }

theorem components_filterMap_eq_nil_iff (files : List PurePath) :
    componentNames.filterMap (name_map files) = [] ↔
      ∀ c ∈ componentNames, name_map files c = none := by
  constructor
  · intro h c hc
    cases hn : name_map files c with
    | none => rfl
    | some f =>
      exfalso
      have : f ∈ componentNames.filterMap (name_map files) :=
        List.mem_filterMap.mpr ⟨c, hc, hn⟩
      rw [h] at this
      exact absurd this (List.not_mem_nil f)
  · intro h
    apply List.filterMap_eq_nil_iff.mpr
    intro c hc
    exact h c hc

theorem resolve_canonical_case (files : List PurePath) (f : PurePath)
    (hp : name_map files (pyLower FdaConfig.FILE_PRODUCTS) = some f) :
    resolve_product_files files = .ok
      { products := [f]
        patent := (name_map files (pyLower FdaConfig.FILE_PATENTS)).toList
        exclusivity := (name_map files (pyLower FdaConfig.FILE_EXCLUSIVITY)).toList } := by
  unfold resolve_product_files
  rw [hp]

theorem resolve_missing_case (files : List PurePath)
    (hp : name_map files (pyLower FdaConfig.FILE_PRODUCTS) = none)
    (hfc : componentNames.filterMap (name_map files) = []) :
    resolve_product_files files = .error missingProductsExc := by
  unfold resolve_product_files
  rw [hp, hfc]
  rfl

theorem resolve_fallback_case (files : List PurePath) (g : PurePath) (gs : List PurePath)
    (hp : name_map files (pyLower FdaConfig.FILE_PRODUCTS) = none)
    (hfc : componentNames.filterMap (name_map files) = g :: gs) :
    resolve_product_files files = .ok
      { products := g :: gs
        patent := (name_map files (pyLower FdaConfig.FILE_PATENTS)).toList
        exclusivity := (name_map files (pyLower FdaConfig.FILE_EXCLUSIVITY)).toList } := by
  unfold resolve_product_files
  rw [hp, hfc]
  rfl

/-- Claim C4: `resolve_product_files` fails, with `SourceSchemaError`
("Missing required product files"), exactly when neither the canonical
products filename nor any of the three fallback component filenames is
present case-insensitively among the inputs; this is the only possible
error; and every normal return carries a non-empty `products` list.  The
spec's `SchemaError` is the code's `SourceSchemaError` class. -/
theorem resolve_product_files_failure_iff (files : List PurePath) :
    (resolve_product_files files = .error missingProductsExc ↔
      ∀ f ∈ files, lowerName f ≠ pyLower FdaConfig.FILE_PRODUCTS ∧
        ∀ c ∈ componentNames, lowerName f ≠ c) ∧
    (∀ e, resolve_product_files files = .error e → e = missingProductsExc) ∧
    (∀ m, resolve_product_files files = .ok m → m.products ≠ []) := by
  cases hp : name_map files (pyLower FdaConfig.FILE_PRODUCTS) with
  | some f =>
    have hr := resolve_canonical_case files f hp
    refine ⟨⟨fun hc => ?_, fun hall => ?_⟩, ?_, ?_⟩
    · rw [hr] at hc; exact absurd hc (by simp)
    · exfalso
      have : name_map files (pyLower FdaConfig.FILE_PRODUCTS) = none :=
        (name_map_eq_none_iff files _).mpr (fun g hg => (hall g hg).1)
      rw [hp] at this
      exact Option.noConfusion this
    · intro e he; rw [hr] at he; exact absurd he (by simp)
    · intro m hm
      rw [hr] at hm
      simp only [Except.ok.injEq] at hm
      rw [← hm]
      simp
  | none =>
    cases hfc : componentNames.filterMap (name_map files) with
    | nil =>
      have hr := resolve_missing_case files hp hfc
      refine ⟨⟨fun _ => ?_, fun _ => hr⟩, ?_, ?_⟩
      · intro f hf
        constructor
        · exact (name_map_eq_none_iff files _).mp hp f hf
        · intro c hc
          have hcn : name_map files c = none :=
            (components_filterMap_eq_nil_iff files).mp hfc c hc
          exact (name_map_eq_none_iff files c).mp hcn f hf
      · intro e he
        rw [hr] at he
        simp only [Except.error.injEq] at he
        exact he.symm
      · intro m hm
        rw [hr] at hm
        exact absurd hm (by simp)
    | cons g gs =>
      have hr := resolve_fallback_case files g gs hp hfc
      refine ⟨⟨fun hc => ?_, fun hall => ?_⟩, ?_, ?_⟩
      · rw [hr] at hc; exact absurd hc (by simp)
      · exfalso
        have hg : g ∈ componentNames.filterMap (name_map files) := by
          rw [hfc]; exact List.mem_cons_self g gs
        rcases List.mem_filterMap.mp hg with ⟨c, hc, hcn⟩
        rcases lastMatching_mem c files g
          ((name_map_eq_lastMatching files c) ▸ hcn) with ⟨hmem, hkey⟩
        exact (hall g hmem).2 c hc hkey
      · intro e he; rw [hr] at he; exact absurd he (by simp)
      · intro m hm
        rw [hr] at hm
        simp only [Except.ok.injEq] at hm
        rw [← hm]
        simp

/-- Witness for C4 at the spec's concrete input: given `{patent.txt}` only,
resolution fails with the schema error. -/
theorem resolve_product_files_failure_iff_witness :
    resolve_product_files [samplePath "patent.txt"] = .error missingProductsExc :=
  (resolve_product_files_failure_iff [samplePath "patent.txt"]).1.mpr (by decide)

/-- Claim C6: when the canonical products file is present it alone fills the
`products` role and the fallback components are ignored; otherwise
`products` is exactly the present subset of the three component files, in
the fixed component order; `patent` and `exclusivity` are resolved
independently by exact well-known filename and stay empty, non-fatally, when
absent; and the two concrete instances from the spec. -/
theorem resolve_product_files_completeness :
    (∀ files f, name_map files (pyLower FdaConfig.FILE_PRODUCTS) = some f →
      resolve_product_files files = .ok
        { products := [f]
          patent := (name_map files (pyLower FdaConfig.FILE_PATENTS)).toList
          exclusivity := (name_map files (pyLower FdaConfig.FILE_EXCLUSIVITY)).toList }) ∧
    (∀ files, name_map files (pyLower FdaConfig.FILE_PRODUCTS) = none →
      componentNames.filterMap (name_map files) ≠ [] →
      resolve_product_files files = .ok
        { products := componentNames.filterMap (name_map files)
          patent := (name_map files (pyLower FdaConfig.FILE_PATENTS)).toList
          exclusivity := (name_map files (pyLower FdaConfig.FILE_EXCLUSIVITY)).toList }) ∧
    resolve_product_files
        [samplePath "products.txt", samplePath "patent.txt", samplePath "exclusivity.txt"] =
      .ok { products := [samplePath "products.txt"]
            patent := [samplePath "patent.txt"]
            exclusivity := [samplePath "exclusivity.txt"] } ∧
    resolve_product_files
        [samplePath "rx.txt", samplePath "otc.txt", samplePath "patent.txt"] =
      .ok { products := [samplePath "rx.txt", samplePath "otc.txt"]
            patent := [samplePath "patent.txt"]
            exclusivity := [] } := by
  refine ⟨resolve_canonical_case, ?_, by decide, by decide⟩
  intro files hp hne
  cases hfc : componentNames.filterMap (name_map files) with
  | nil => exact absurd hfc hne
  | cons g gs => rw [← hfc]; exact hfc ▸ resolve_fallback_case files g gs hp hfc

/-- Witness for C6: the canonical-file branch applied at a concrete list
that also contains the fallback components, which are ignored. -/
theorem resolve_product_files_completeness_witness :
    resolve_product_files
        [samplePath "rx.txt", samplePath "products.txt", samplePath "otc.txt"] =
      .ok { products := [samplePath "products.txt"]
            patent := []
            exclusivity := [] } :=
  resolve_product_files_completeness.1
    [samplePath "rx.txt", samplePath "products.txt", samplePath "otc.txt"]
    (samplePath "products.txt") (by decide)

/-- Rename every path of a role map. -/
def RoleMap.mapPaths (g : PurePath → PurePath) (m : RoleMap) : RoleMap :=
  { products := m.products.map g
    patent := m.patent.map g
    exclusivity := m.exclusivity.map g }

theorem name_map_map_foldl (g : PurePath → PurePath) (key : String) :
    ∀ files : List PurePath, (∀ f ∈ files, lowerName (g f) = lowerName f) →
    ∀ a : Option PurePath,
      (files.map g).foldl (fun acc f => if lowerName f = key then some f else acc) (a.map g) =
        (files.foldl (fun acc f => if lowerName f = key then some f else acc) a).map g := by
  intro files
  induction files with
  | nil => intro _ a; rfl
  | cons f fs ih =>
    intro h a
    simp only [List.map_cons, List.foldl_cons]
    rw [h f (List.mem_cons_self f fs)]
    by_cases hk : lowerName f = key
    · rw [if_pos hk, if_pos hk]
      exact ih (fun x hx => h x (List.mem_cons_of_mem f hx)) (some f)
    · rw [if_neg hk, if_neg hk]
      exact ih (fun x hx => h x (List.mem_cons_of_mem f hx)) a

theorem name_map_map (g : PurePath → PurePath) (files : List PurePath)
    (h : ∀ f ∈ files, lowerName (g f) = lowerName f) (key : String) :
    name_map (files.map g) key = (name_map files key).map g :=
  name_map_map_foldl g key files h none

theorem filterMap_name_map_map (g : PurePath → PurePath) (files : List PurePath)
    (h : ∀ f ∈ files, lowerName (g f) = lowerName f) (keys : List String) :
    keys.filterMap (name_map (files.map g)) =
      (keys.filterMap (name_map files)).map g := by
  induction keys with
  | nil => rfl
  | cons k ks ih =>
    simp only [List.filterMap_cons, name_map_map g files h k]
    cases name_map files k with
    | none => simpa using ih
    | some f => simp [ih]

/-- Claim C9: changing only the letter case of the input base filenames does
not change the role assignment — for any renaming `g` that preserves the
lowercased base name, resolving the renamed list yields exactly the renamed
resolution (same role structure, same failure behavior). -/
theorem resolve_product_files_case_invariance (files : List PurePath)
    (g : PurePath → PurePath) (h : ∀ f ∈ files, lowerName (g f) = lowerName f) :
    resolve_product_files (files.map g) =
      (resolve_product_files files).map (RoleMap.mapPaths g) := by
  unfold resolve_product_files
  rw [name_map_map g files h, name_map_map g files h, name_map_map g files h,
    filterMap_name_map_map g files h]
  cases name_map files (pyLower FdaConfig.FILE_PRODUCTS) with
  | some f =>
    simp only [Option.map_some, Except.map]
    cases name_map files (pyLower FdaConfig.FILE_PATENTS) <;>
      cases name_map files (pyLower FdaConfig.FILE_EXCLUSIVITY) <;>
        simp [RoleMap.mapPaths, Option.toList]
  | none =>
    simp only [Option.map_none]
    cases hfc : componentNames.filterMap (name_map files) with
    | nil => simp [Except.map]
    | cons x xs =>
      simp only [List.map_cons, List.isEmpty_cons, if_false, Except.map]
      cases name_map files (pyLower FdaConfig.FILE_PATENTS) <;>
        cases name_map files (pyLower FdaConfig.FILE_EXCLUSIVITY) <;>
          simp [RoleMap.mapPaths, Option.toList]

/-- Witness for C9: a list whose filenames are upper-case resolves to the
same role assignment as its lower-case renaming, here checked at
`PRODUCTS.TXT` versus `products.txt`. -/
theorem resolve_product_files_case_invariance_witness :
    resolve_product_files
        ([samplePath "PRODUCTS.TXT", samplePath "PATENT.TXT"].map
          (fun f => samplePath (pyLower f.name))) =
      (resolve_product_files [samplePath "PRODUCTS.TXT", samplePath "PATENT.TXT"]).map
        (RoleMap.mapPaths (fun f => samplePath (pyLower f.name))) :=
  resolve_product_files_case_invariance
    [samplePath "PRODUCTS.TXT", samplePath "PATENT.TXT"]
    (fun f => samplePath (pyLower f.name)) (by decide)

/-- Claim C10: the case-insensitive lookup is built by successive
overwriting insertion, so among input files sharing a lowercased base name
the one occurring last in input order wins; in particular the products role
is assigned exactly that last file. -/
theorem name_map_last_wins (files : List PurePath) (key : String) (f : PurePath) :
    name_map files key = lastMatching key files ∧
    (lastMatching (pyLower FdaConfig.FILE_PRODUCTS) files = some f →
      ∃ m, resolve_product_files files = .ok m ∧ m.products = [f]) := by
  refine ⟨name_map_eq_lastMatching files key, fun h => ?_⟩
  have hp : name_map files (pyLower FdaConfig.FILE_PRODUCTS) = some f :=
    (name_map_eq_lastMatching files _).trans h
  exact ⟨_, resolve_canonical_case files f hp, rfl⟩

/-- Witness for C10: two files both named `products.txt` up to case; the
later one shadows the earlier one and alone fills the products role. -/
theorem name_map_last_wins_witness :
    name_map [samplePath "PRODUCTS.TXT", samplePath "products.txt"] "products.txt" =
        lastMatching "products.txt"
          [samplePath "PRODUCTS.TXT", samplePath "products.txt"] ∧
      ∃ m, resolve_product_files [samplePath "PRODUCTS.TXT", samplePath "products.txt"] =
          .ok m ∧ m.products = [samplePath "products.txt"] :=
  ⟨(name_map_last_wins [samplePath "PRODUCTS.TXT", samplePath "products.txt"]
      "products.txt" (samplePath "products.txt")).1,
   (name_map_last_wins [samplePath "PRODUCTS.TXT", samplePath "products.txt"]
      "products.txt" (samplePath "products.txt")).2 (by decide)⟩

/-! ## Extraction loop characterization -/

/-- The members of an entry list that pass the zip-slip check, in
central-directory order. -/
def acceptedEntries (res : Resolver) (dest : PurePath) (entries : List String) :
    List String :=
  entries.filter (fun n => checkEntry res dest (memberTarget dest n) == EntryCheck.accept)

/-- The warnings the extraction loop logs, one per skipped member, in
central-directory order. -/
def skipWarnings (res : Resolver) (dest : PurePath) (entries : List String) :
    List String :=
  entries.filterMap (fun n =>
    match checkEntry res dest (memberTarget dest n) with
    | .accept => none
    | .skipUnsafe => some ("Skipping unsafe file path in zip: " ++ n)
    | .skipErr => some ("Skipping invalid file path in zip: " ++ n))

theorem extract_foldl_characterization (res : Resolver) (dest : PurePath) :
    ∀ (entries : List String) (st : LoopState),
      entries.foldl (extractStep res dest) st =
        { written := st.written ++
            (acceptedEntries res dest entries).map (extractedWritePath dest)
          returned := st.returned ++
            (acceptedEntries res dest entries).map (memberTarget dest)
          warnings := st.warnings ++ skipWarnings res dest entries } := by
  intro entries
  induction entries with
  | nil => intro st; simp [acceptedEntries, skipWarnings]
  | cons n ns ih =>
    intro st
    simp only [List.foldl_cons]
    rw [ih]
    unfold extractStep
    cases hc : checkEntry res dest (memberTarget dest n) <;>
      simp [acceptedEntries, skipWarnings, List.filter_cons, List.filterMap_cons, hc]

theorem extract_archive_valid_eq (res : Resolver) (dest : PurePath)
    (entries : List String) :
    extract_archive res dest (.valid entries) =
      { written := (acceptedEntries res dest entries).map (extractedWritePath dest)
        warnings := skipWarnings res dest entries
        result := .ok ((acceptedEntries res dest entries).map (memberTarget dest)) } := by
  show ({ written := (entries.foldl (extractStep res dest) ⟨[], [], []⟩).written
          warnings := (entries.foldl (extractStep res dest) ⟨[], [], []⟩).warnings
          result := .ok (entries.foldl (extractStep res dest) ⟨[], [], []⟩).returned } :
        ExtractOutcome) = _
  rw [extract_foldl_characterization]
  simp

theorem checkEntry_accept_iff (res : Resolver) (dest t : PurePath) :
    checkEntry res dest t = .accept ↔
      ∃ rp rd, res t = .ok rp ∧ res dest = .ok rd ∧ rp.isRelativeTo rd = true := by
  unfold checkEntry
  cases h1 : res t with
  | error e => simp
  | ok rp =>
    cases h2 : res dest with
    | error e => simp
    | ok rd => by_cases h3 : rp.isRelativeTo rd <;> simp [h3]

theorem mem_acceptedEntries_iff (res : Resolver) (dest : PurePath)
    (entries : List String) (n : String) :
    n ∈ acceptedEntries res dest entries ↔
      n ∈ entries ∧ checkEntry res dest (memberTarget dest n) = .accept := by
  unfold acceptedEntries
  rw [List.mem_filter]
  simp

theorem reject_not_mem_returned (res : Resolver) (dest : PurePath)
    (entries : List String) (t : PurePath)
    (h : checkEntry res dest t ≠ .accept) :
    t ∉ (acceptedEntries res dest entries).map (memberTarget dest) := by
  intro hmem
  rcases List.mem_map.mp hmem with ⟨n, hn, ht⟩
  have hacc := ((mem_acceptedEntries_iff res dest entries n).mp hn).2
  rw [ht] at hacc
  exact h hacc

theorem partsLe_self_append (as bs : List String) : partsLe as (as ++ bs) = true := by
  induction as with
  | nil => rfl
  | cons a at' ih => simp [partsLe, ih]

/-- Claim C1 (zip-slip invariant): on a valid archive the call never raises;
a member is accepted exactly when both its candidate path
`destinationDir / entry.name` and the destination directory canonicalize
successfully and the former is equal to or a descendant of the latter; every
rejected member (failed containment or resolution error) produces no write,
is absent from the returned list, and logs a warning; and every accepted
member is still extracted. -/
theorem extract_archive_zip_slip_invariant (res : Resolver) (dest : PurePath)
    (entries : List String) :
    (∀ t, checkEntry res dest t = .accept ↔
      ∃ rp rd, res t = .ok rp ∧ res dest = .ok rd ∧ rp.isRelativeTo rd = true) ∧
    (extract_archive res dest (.valid entries)).result =
      .ok ((acceptedEntries res dest entries).map (memberTarget dest)) ∧
    (extract_archive res dest (.valid entries)).written =
      (acceptedEntries res dest entries).map (extractedWritePath dest) ∧
    (∀ n ∈ entries, checkEntry res dest (memberTarget dest n) ≠ .accept →
      memberTarget dest n ∉
        (acceptedEntries res dest entries).map (memberTarget dest)) ∧
    (∀ n ∈ entries, checkEntry res dest (memberTarget dest n) = .skipUnsafe →
      ("Skipping unsafe file path in zip: " ++ n) ∈
        (extract_archive res dest (.valid entries)).warnings) ∧
    (∀ n ∈ entries, checkEntry res dest (memberTarget dest n) = .skipErr →
      ("Skipping invalid file path in zip: " ++ n) ∈
        (extract_archive res dest (.valid entries)).warnings) ∧
    (∀ n ∈ entries, checkEntry res dest (memberTarget dest n) = .accept →
      memberTarget dest n ∈
        (acceptedEntries res dest entries).map (memberTarget dest)) := by
  rw [extract_archive_valid_eq]
  refine ⟨checkEntry_accept_iff res dest, rfl, rfl, ?_, ?_, ?_, ?_⟩
  · intro n _ h
    exact reject_not_mem_returned res dest entries (memberTarget dest n) h
  · intro n hn h
    exact List.mem_filterMap.mpr ⟨n, hn, by rw [h]⟩
  · intro n hn h
    exact List.mem_filterMap.mpr ⟨n, hn, by rw [h]⟩
  · intro n hn h
    exact List.mem_map_of_mem (memberTarget dest)
      ((mem_acceptedEntries_iff res dest entries n).mpr ⟨hn, h⟩)

/-- A concrete symlink-free resolver for the witnesses, with working
directory `/cwd`. -/
def plainResolver : Resolver := fun p => .ok (resolvePure ["cwd"] p)

/-- The destination directory used by the witnesses. -/
def sampleDest : PurePath := { absolute := true, parts := ["tmp", "dest"] }

/-- Witness for C1: an archive holding a traversal member `../evil.txt` and
a safe member `good.txt`; the former is rejected (no write, a warning, not
in the returned list) and the latter is still extracted. -/
theorem extract_archive_zip_slip_invariant_witness :
    (checkEntry plainResolver sampleDest
        (memberTarget sampleDest "../evil.txt") ≠ .accept ∧
      memberTarget sampleDest "../evil.txt" ∉
        (acceptedEntries plainResolver sampleDest ["../evil.txt", "good.txt"]).map
          (memberTarget sampleDest)) ∧
    ("Skipping unsafe file path in zip: ../evil.txt" ∈
      (extract_archive plainResolver sampleDest
        (.valid ["../evil.txt", "good.txt"])).warnings) ∧
    memberTarget sampleDest "good.txt" ∈
      (acceptedEntries plainResolver sampleDest ["../evil.txt", "good.txt"]).map
        (memberTarget sampleDest) :=
  ⟨⟨by decide,
    (extract_archive_zip_slip_invariant plainResolver sampleDest
        ["../evil.txt", "good.txt"]).2.2.2.1 "../evil.txt" (by decide) (by decide)⟩,
   (extract_archive_zip_slip_invariant plainResolver sampleDest
        ["../evil.txt", "good.txt"]).2.2.2.2.1 "../evil.txt" (by decide) (by decide),
   (extract_archive_zip_slip_invariant plainResolver sampleDest
        ["../evil.txt", "good.txt"]).2.2.2.2.2.2 "good.txt" (by decide) (by decide)⟩

/-- Claim C3: a missing archive file raises `SourceConnectionError` (the
code's realization of the spec's `NotFoundError` for absent local files) and
a file that is not a well-formed ZIP container raises `SourceSchemaError`
wrapping `BadZipFile` (the spec's `InvalidFormat`); in both cases nothing is
written and no warning is logged — the call aborts before any extraction. -/
theorem extract_archive_fatal_failures (res : Resolver) (dest : PurePath) :
    extract_archive res dest .missing =
      { written := [], warnings := []
        result := .error { cls := .sourceConnectionError
                           msg := "ZIP file not found at"
                           cause := none } } ∧
    extract_archive res dest .notAZip =
      { written := [], warnings := []
        result := .error { cls := .sourceSchemaError
                           msg := "is not a valid ZIP archive"
                           cause := some "BadZipFile" } } :=
  ⟨rfl, rfl⟩

/-- Claim C7: the returned list is exactly, in central-directory order, the
original (non-canonicalized) candidate paths `destinationDir / entry.name`
of the accepted members; every returned path canonicalizes to a descendant
of the canonical destination; and every path actually written on disk has
`destinationDir` as a componentwise ancestor. -/
theorem extract_archive_returned_paths (res : Resolver) (dest : PurePath)
    (entries : List String) :
    (extract_archive res dest (.valid entries)).result =
      .ok ((acceptedEntries res dest entries).map (memberTarget dest)) ∧
    (∀ p ∈ (acceptedEntries res dest entries).map (memberTarget dest),
      ∃ rp rd, res p = .ok rp ∧ res dest = .ok rd ∧ rp.isRelativeTo rd = true) ∧
    (∀ w ∈ (extract_archive res dest (.valid entries)).written,
      w.absolute = dest.absolute ∧ partsLe dest.parts w.parts = true) := by
  rw [extract_archive_valid_eq]
  refine ⟨rfl, ?_, ?_⟩
  · intro p hp
    rcases List.mem_map.mp hp with ⟨n, hn, ht⟩
    have hacc := ((mem_acceptedEntries_iff res dest entries n).mp hn).2
    rw [ht] at hacc
    exact (checkEntry_accept_iff res dest p).mp hacc
  · intro w hw
    rcases List.mem_map.mp hw with ⟨n, _, ht⟩
    rw [← ht]
    exact ⟨rfl, partsLe_self_append dest.parts _⟩

/-- Witness for C7: in the two-member archive the returned list is exactly
the unresolved candidate path of the accepted member, it resolves under the
destination, and the written path sits under the destination. -/
theorem extract_archive_returned_paths_witness :
    (extract_archive plainResolver sampleDest
        (.valid ["../evil.txt", "good.txt"])).result =
      .ok [memberTarget sampleDest "good.txt"] ∧
    (∃ rp rd, plainResolver (memberTarget sampleDest "good.txt") = .ok rp ∧
      plainResolver sampleDest = .ok rd ∧ rp.isRelativeTo rd = true) ∧
    (∀ w ∈ (extract_archive plainResolver sampleDest
        (.valid ["../evil.txt", "good.txt"])).written,
      w.absolute = sampleDest.absolute ∧ partsLe sampleDest.parts w.parts = true) := by
  have h := extract_archive_returned_paths plainResolver sampleDest
    ["../evil.txt", "good.txt"]
  refine ⟨?_, ?_, h.2.2⟩
  · rw [h.1]; decide
  · exact h.2.1 (memberTarget sampleDest "good.txt") (by decide)

/-! ## Hashing lemmas -/

theorem chunksOfAux_flatten (n : Nat) (hn : 0 < n) :
    ∀ (fuel : Nat) (l : Bytes), l.length ≤ fuel →
      (chunksOfAux n fuel l).flatten = l := by
  intro fuel
  induction fuel with
  | zero =>
    intro l hl
    have h0 : l = [] := List.eq_nil_of_length_eq_zero (Nat.le_zero.mp hl)
    rw [h0]
    rfl
  | succ m ih =>
    intro l hl
    cases l with
    | nil => rfl
    | cons c cs =>
      simp only [chunksOfAux]
      rw [if_neg (Nat.pos_iff_ne_zero.mp hn), List.flatten_cons,
        ih ((c :: cs).drop n) ?_, List.take_append_drop]
      simp only [List.length_drop, List.length_cons]
      simp only [List.length_cons] at hl
      omega

theorem chunksOf_flatten (n : Nat) (hn : 0 < n) (l : Bytes) :
    (chunksOf n l).flatten = l :=
  chunksOfAux_flatten n hn l.length l le_rfl

theorem foldl_update_buffered :
    ∀ (chunks : List Bytes) (acc : Bytes),
      (chunks.foldl Md5State.update { buffered := acc }).buffered =
        acc ++ chunks.flatten := by
  intro chunks
  induction chunks with
  | nil => intro acc; simp
  | cons c cs ih =>
    intro acc
    simp only [List.foldl_cons, Md5State.update, List.flatten_cons]
    rw [ih, List.append_assoc]

theorem calculate_file_hash_content (file : FileState) (content : Bytes)
    (hp : file.present = true) (hr : file.readResult = .ok content) :
    calculate_file_hash file = .ok (md5Hex content) := by
  unfold calculate_file_hash
  rw [hp, hr]
  simp only [Bool.not_true, Bool.false_eq_true, if_false]
  unfold Md5State.hexdigest
  congr 1
  show md5Hex ((chunksOf CHUNK_SIZE content).foldl Md5State.update md5_new).buffered =
    md5Hex content
  unfold md5_new
  rw [foldl_update_buffered, chunksOf_flatten CHUNK_SIZE (by decide) content,
    List.nil_append]

theorem hexChar_mem (n : Nat) : hexChar n ∈ hexChars := by
  by_cases h : n < 16
  · interval_cases n <;> decide
  · unfold hexChar
    rw [List.getD_eq_default]
    · decide
    · have hl : hexChars.length = 16 := rfl
      omega

theorem md5Hex_chars (msg : Bytes) : ∀ c ∈ (md5Hex msg).data, c ∈ hexChars := by
  intro c hc
  unfold md5Hex at hc
  rcases List.mem_flatten.mp hc with ⟨pair, hpair, hcp⟩
  rcases List.mem_map.mp hpair with ⟨b, _, hb⟩
  rw [← hb] at hcp
  unfold byteHex at hcp
  simp only [List.mem_cons, List.not_mem_nil, or_false] at hcp
  rcases hcp with rfl | rfl <;> exact hexChar_mem _

/-- Claim C5: `calculate_file_hash` checks existence explicitly before any
read (the not-found error is raised whatever a read would have produced),
raises the wrapped-cause error for any read failure, and the two raised
error values are distinct — though both are of the single class
`SourceConnectionError` (the code's realization of the spec's
`NotFoundError` and `IOFailure`), they differ in message and wrapped
cause. -/
theorem calculate_file_hash_error_classification :
    (∀ rr : Except String Bytes,
      calculate_file_hash { present := false, readResult := rr } =
        .error { cls := .sourceConnectionError
                 msg := "File not found for hashing"
                 cause := none }) ∧
    (∀ e : String,
      calculate_file_hash { present := true, readResult := .error e } =
        .error { cls := .sourceConnectionError
                 msg := "Failed to calculate hash for"
                 cause := some e }) ∧
    (∀ e : String,
      ({ cls := .sourceConnectionError
         msg := "File not found for hashing"
         cause := none } : PyExc) ≠
        { cls := .sourceConnectionError
          msg := "Failed to calculate hash for"
          cause := some e }) := by
  refine ⟨fun _ => rfl, fun _ => rfl, fun e h => ?_⟩
  have := congrArg PyExc.cause h
  simp at this

/-- Witness for C5: the two failure modes at concrete inputs — a missing
file (whose read would even have succeeded) and a present file whose read
raises a permission error — and the distinctness of the two errors. -/
theorem calculate_file_hash_error_classification_witness :
    calculate_file_hash { present := false, readResult := .ok [1, 2, 3] } =
      .error { cls := .sourceConnectionError
               msg := "File not found for hashing"
               cause := none } ∧
    calculate_file_hash { present := true, readResult := .error "Permission denied" } =
      .error { cls := .sourceConnectionError
               msg := "Failed to calculate hash for"
               cause := some "Permission denied" } ∧
    ({ cls := .sourceConnectionError
       msg := "File not found for hashing"
       cause := none } : PyExc) ≠
      { cls := .sourceConnectionError
        msg := "Failed to calculate hash for"
        cause := some "Permission denied" } :=
  ⟨calculate_file_hash_error_classification.1 (.ok [1, 2, 3]),
   calculate_file_hash_error_classification.2.1 "Permission denied",
   calculate_file_hash_error_classification.2.2 "Permission denied"⟩

/-- Claim C8: on a readable file the hash call returns exactly the MD5 hex
digest of the file's bytes; the 8192-byte chunk decomposition is lossless;
the result is a function of the content alone (so two calls on an unchanged
file agree); the digest of an empty file is the MD5 digest of the empty byte
sequence; and every digest character is a lowercase hex digit. -/
theorem calculate_file_hash_md5_correct (file : FileState) (content : Bytes)
    (hp : file.present = true) (hr : file.readResult = .ok content) :
    calculate_file_hash file = .ok (md5Hex content) ∧
    (chunksOf CHUNK_SIZE content).flatten = content ∧
    (∀ file' : FileState, file'.present = true → file'.readResult = .ok content →
      calculate_file_hash file' = calculate_file_hash file) ∧
    (content = [] → calculate_file_hash file = .ok (md5Hex [])) ∧
    (∀ c ∈ (md5Hex content).data, c ∈ hexChars) := by
  refine ⟨calculate_file_hash_content file content hp hr,
    chunksOf_flatten CHUNK_SIZE (by decide) content, ?_, ?_, md5Hex_chars content⟩
  · intro file' hp' hr'
    rw [calculate_file_hash_content file' content hp' hr',
      calculate_file_hash_content file content hp hr]
  · intro hcontent
    rw [calculate_file_hash_content file content hp hr, hcontent]

set_option maxRecDepth 20000 in
/-- Witness for C8: hashing a concrete empty file returns the well-known MD5
digest of the empty byte sequence, fully evaluated through the embedded
MD5. -/
theorem calculate_file_hash_md5_correct_witness :
    calculate_file_hash { present := true, readResult := .ok [] } =
      .ok (md5Hex []) ∧
    md5Hex [] = "d41d8cd98f00b204e9800998ecf8427e" :=
  ⟨(calculate_file_hash_md5_correct { present := true, readResult := .ok [] }
      [] rfl rfl).1, by decide⟩

/-! ## Download classification -/

/-- Counterexample to C2 as stated: the claim classifies any generic non-2xx
response as `ConnectionFailure`, but the code raises on a status only via
`raise_for_status`, which fires for statuses at least 400; a final 304
response (not a 2xx) with a marker-free URL is treated as success and the
body is written. -/
theorem download_archive_classification_counterexample :
    ¬ (200 ≤ 304 ∧ 304 ≤ 299) ∧
    download_archive (.response { status_code := 304
                                  url := "https://www.fda.gov/media/76860/download"
                                  body := [] }) = .ok [] :=
  ⟨by decide, by decide⟩

/-- Claim C2 as amended: a transport error raises `SourceConnectionError`
wrapping the cause; a final URL containing an abuse/apology marker raises
`SourceConnectionError` whatever the status; otherwise 404 raises
`SourceSchemaError`, 403 raises `SourceConnectionError`, any other status of
400 or above raises `SourceConnectionError` wrapping the HTTP error, and any
status below 400 succeeds with the streamed body.  The spec's `SchemaError`
and `ConnectionFailure` are the code's `SourceSchemaError` and
`SourceConnectionError`. -/
theorem download_archive_classification (r : HttpResponse) (e : String) :
    (download_archive (.transportError e) =
      .error { cls := .sourceConnectionError
               msg := "Failed to download from"
               cause := some e }) ∧
    ((strContains r.url "abuse" || strContains r.url "apology") = true →
      download_archive (.response r) =
        .error { cls := .sourceConnectionError
                 msg := "FDA Firewall Blocked Request: Abuse Detection Triggered"
                 cause := none }) ∧
    ((strContains r.url "abuse" || strContains r.url "apology") = false →
      r.status_code = 404 →
      download_archive (.response r) =
        .error { cls := .sourceSchemaError
                 msg := "Download link not found (404)"
                 cause := none }) ∧
    ((strContains r.url "abuse" || strContains r.url "apology") = false →
      r.status_code = 403 →
      download_archive (.response r) =
        .error { cls := .sourceConnectionError
                 msg := "Access forbidden (403)"
                 cause := none }) ∧
    ((strContains r.url "abuse" || strContains r.url "apology") = false →
      r.status_code ≠ 404 → r.status_code ≠ 403 → 400 ≤ r.status_code →
      download_archive (.response r) =
        .error { cls := .sourceConnectionError
                 msg := "Failed to download from"
                 cause := some ("HTTPError " ++ toString r.status_code) }) ∧
    ((strContains r.url "abuse" || strContains r.url "apology") = false →
      r.status_code < 400 →
      download_archive (.response r) = .ok r.body) := by
  refine ⟨rfl, ?_, ?_, ?_, ?_, ?_⟩
  · intro hm
    simp only [download_archive]
    rw [if_pos hm]
  · intro hm h404
    simp only [download_archive]
    rw [if_neg (by simp [hm]), if_pos h404]
  · intro hm h403
    simp only [download_archive]
    rw [if_neg (by simp [hm]), if_neg (by omega), if_pos h403]
  · intro hm h404 h403 hge
    simp only [download_archive]
    rw [if_neg (by simp [hm]), if_neg h404, if_neg h403, if_pos hge]
  · intro hm hlt
    simp only [download_archive]
    rw [if_neg (by simp [hm]), if_neg (by omega), if_neg (by omega),
      if_neg (Nat.not_le_of_lt hlt)]

/-- Witness for C2 (amended): the four classification branches at concrete
responses — a 404, a 403, a blocked 200 whose final URL contains `/abuse/`,
and a transport-level reset. -/
theorem download_archive_classification_witness :
    download_archive (.response { status_code := 404
                                  url := "https://www.fda.gov/media/76860/download"
                                  body := [] }) =
      .error { cls := .sourceSchemaError
               msg := "Download link not found (404)"
               cause := none } ∧
    download_archive (.response { status_code := 403
                                  url := "https://www.fda.gov/media/76860/download"
                                  body := [] }) =
      .error { cls := .sourceConnectionError
               msg := "Access forbidden (403)"
               cause := none } ∧
    download_archive (.response { status_code := 200
                                  url := "https://www.fda.gov/abuse/detected"
                                  body := [1] }) =
      .error { cls := .sourceConnectionError
               msg := "FDA Firewall Blocked Request: Abuse Detection Triggered"
               cause := none } ∧
    download_archive (.transportError "Connection reset by peer") =
      .error { cls := .sourceConnectionError
               msg := "Failed to download from"
               cause := some "Connection reset by peer" } :=
  ⟨(download_archive_classification
      { status_code := 404, url := "https://www.fda.gov/media/76860/download",
        body := [] } "").2.2.1 (by decide) rfl,
   (download_archive_classification
      { status_code := 403, url := "https://www.fda.gov/media/76860/download",
        body := [] } "").2.2.2.1 (by decide) rfl,
   (download_archive_classification
      { status_code := 200, url := "https://www.fda.gov/abuse/detected",
        body := [1] } "").2.1 (by decide),
   (download_archive_classification
      { status_code := 200, url := "x", body := [] } "Connection reset by peer").1⟩
